import Mathlib

/-! Handlers and Basic-Auth middleware of `simple_web_app_go`.

A shallow embedding of

* `internal/handlers/handlers_solution.go` (`GetRepoListSolution`),
* `internal/handlers/handlers.go` (`Protected`),
* `internal/middleware/auth.go` (`BasicAuth`),

followed by theorems about the embedded functions.

Conventions of the embedding.

* Go strings are modelled by `String`; the Go code works on the UTF-8 bytes, and
  for well-formed UTF-8 a byte-level substring test agrees with the
  character-level one used here.
* A Go slice is a `List` (a `nil` slice is the empty list).
* The `http.ResponseWriter` is an explicit state that every handler threads.
* The network (`client.Do`), the JSON decoder, the process environment and the
  Unicode case table are not code of this repository; they are parameters.
* The functions of Go's standard library that the handlers call (`strings`,
  `net/http`, `net/url`, `crypto/subtle`) are modelled after their sources, as
  far as the handlers depend on them.
-/

namespace SimpleWebApp

/-! ## Go standard library: `strings` -/

/-- ASCII branch of Go's lower-casing: `c += 'a' - 'A'` for `'A' ≤ c ≤ 'Z'`. -/
def asciiToLower (c : Char) : Char :=
  if 65 ≤ c.toNat ∧ c.toNat ≤ 90 then Char.ofNat (c.toNat + 32) else c

/-- Go's `unicode.ToLower`: ASCII runes are handled inline, every other rune goes
through the Unicode case table `tbl`, which is a parameter of the model. -/
def unicodeToLower (tbl : Char → Char) (r : Char) : Char :=
  if r.toNat ≤ 127 then asciiToLower r else tbl r

/-- Go's `strings.ToLower`: an ASCII-only string without upper-case letters is
returned as is, an ASCII-only string is mapped bytewise, and any other string
is mapped rune by rune with `unicode.ToLower`. -/
def ToLower (tbl : Char → Char) (s : String) : String :=
  let isASCII := s.data.all (fun c => decide (c.toNat < 128))
  let hasUpper := s.data.any (fun c => decide (65 ≤ c.toNat ∧ c.toNat ≤ 90))
  if isASCII then
    if !hasUpper then s else String.mk (s.data.map asciiToLower)
  else String.mk (s.data.map (unicodeToLower tbl))

/-- Scan of `strings.Index`: is `sub` a prefix of some suffix of `s`? -/
def containsAt (sub : List Char) : List Char → Bool
  | [] => sub.isPrefixOf []
  | c :: cs => sub.isPrefixOf (c :: cs) || containsAt sub cs

/-- Go's `strings.Contains(s, substr)`, that is `strings.Index(s, substr) >= 0`. -/
def Contains (s substr : String) : Bool :=
  containsAt substr.data s.data

/-! ## Data model (`handlers_solution.go`, `handlers.go`) -/

/-- The Go struct `GitHubRepo`. -/
structure GitHubRepo where
  Name : String
  FullName : String
  Description : String
  HTMLURL : String
  StarCount : Int
  Language : String
  deriving DecidableEq, Repr

/-- The Go struct `RepoListResponse`. -/
structure RepoListResponse where
  Organization : String
  Count : Nat
  Repositories : List GitHubRepo
  deriving DecidableEq, Repr

/-- The Go struct `ErrorResponse`. -/
structure ErrorResponse where
  Error : String
  deriving DecidableEq, Repr

/-- The Go struct `ProtectedResponse`. -/
structure ProtectedResponse where
  Message : String
  deriving DecidableEq, Repr

/-! ## Step 10 of `GetRepoListSolution`: the filter -/

/-- Body of the `for _, repo := range repos` loop (lines 204-210): `repo` is
appended to the accumulator when its lower-cased name contains `filterLower`. -/
def filterStep (tbl : Char → Char) (filterLower : String)
    (acc : List GitHubRepo) (repo : GitHubRepo) : List GitHubRepo :=
  if Contains (ToLower tbl repo.Name) filterLower then acc ++ [repo] else acc

/-- Lines 195-211: `filteredRepos := repos`, replaced by the result of the loop
over `repos` (started from an empty slice) when `repoFilter != ""`. -/
def filteredRepos (tbl : Char → Char) (repos : List GitHubRepo) (repoFilter : String) :
    List GitHubRepo :=
  if repoFilter ≠ "" then
    let filterLower := ToLower tbl repoFilter
    repos.foldl (filterStep tbl filterLower) []
  else repos

/-! ## Go standard library: `net/http`, `net/url`, `crypto/subtle` -/

/-- A value handed to the response body: one of the structs given to
`json.NewEncoder(w).Encode`, or the plain text line written by `http.Error`. -/
inductive Payload where
  | errorResponse (e : ErrorResponse)
  | repoListResponse (r : RepoListResponse)
  | protectedResponse (p : ProtectedResponse)
  | text (s : String)
  deriving DecidableEq, Repr

/-- State of an `http.ResponseWriter`: the header map, the status line (`none`
as long as no header has been written) and the values written to the body. -/
structure ResponseWriter where
  header : List (String × String)
  status : Option Int
  body : List Payload
  deriving DecidableEq, Repr

/-- The writer the server hands to a handler: nothing set, nothing written. -/
def ResponseWriter.fresh : ResponseWriter := ⟨[], none, []⟩

/-- The call `w.Header().Del(key)`. -/
def ResponseWriter.HeaderDel (w : ResponseWriter) (key : String) : ResponseWriter :=
  { w with header := w.header.filter (fun kv => kv.1 ≠ key) }

/-- The call `w.Header().Set(key, value)`. -/
def ResponseWriter.HeaderSet (w : ResponseWriter) (key value : String) : ResponseWriter :=
  { w with header := (key, value) :: w.header.filter (fun kv => kv.1 ≠ key) }

/-- The call `w.WriteHeader(code)`: only the first call sets the status. -/
def ResponseWriter.WriteHeader (w : ResponseWriter) (code : Int) : ResponseWriter :=
  match w.status with
  | none => { w with status := some code }
  | some _ => w

/-- The call `w.Write(..)`: an implicit `WriteHeader(200)` when no header has
been written, then the payload is appended to the body. -/
def ResponseWriter.Write (w : ResponseWriter) (p : Payload) : ResponseWriter :=
  let w1 := w.WriteHeader 200
  { w1 with body := w1.body ++ [p] }

/-- The call `json.NewEncoder(w).Encode(v)`. -/
def ResponseWriter.Encode (w : ResponseWriter) (v : Payload) : ResponseWriter :=
  w.Write v

/-- Go's `http.Error(w, error, code)`. -/
def Error (w : ResponseWriter) (error : String) (code : Int) : ResponseWriter :=
  let w := w.HeaderDel "Content-Length"
  let w := w.HeaderSet "Content-Type" "text/plain; charset=utf-8"
  let w := w.HeaderSet "X-Content-Type-Options" "nosniff"
  let w := w.WriteHeader code
  w.Write (.text (error ++ "\n"))

abbrev StatusOK : Int := 200
abbrev StatusBadRequest : Int := 400
abbrev StatusUnauthorized : Int := 401
abbrev StatusNotFound : Int := 404
abbrev StatusInternalServerError : Int := 500
abbrev StatusBadGateway : Int := 502
abbrev StatusServiceUnavailable : Int := 503

/-- What a handler reads from the inbound `*http.Request`: `r.PathValue`,
`r.URL.Query()` and the result of `r.BasicAuth()` (`none` when `ok` is false). -/
structure Request where
  PathValue : String → String
  Query : String → List String
  BasicAuth : Option (String × String)

/-- Go's `url.Values.Get`: the first value of the key, `""` when there is none. -/
def ValuesGet (v : String → List String) (key : String) : String :=
  match v key with
  | [] => ""
  | x :: _ => x

/-- An outbound `*http.Request` as built by `http.NewRequest`. -/
structure ClientRequest where
  Method : String
  URL : String
  Header : List (String × String)
  deriving DecidableEq, Repr

/-- The call `req.Header.Set(key, value)`. -/
def ClientRequest.HeaderSet (req : ClientRequest) (key value : String) : ClientRequest :=
  { req with Header := (key, value) :: req.Header.filter (fun kv => kv.1 ≠ key) }

/-- Go's `strings.Cut(s, sep)` for a one-byte separator. -/
def cut (sep : Char) (s : List Char) : List Char × List Char :=
  (s.takeWhile (fun c => c ≠ sep), (s.dropWhile (fun c => c ≠ sep)).drop 1)

/-- Test of `stringContainsCTLByte` in `net/url`: `b < ' ' || b == 0x7f`. -/
def isCTLByte (c : Char) : Bool :=
  decide (c.toNat < 32) || decide (c.toNat = 127)

/-- The `ishex` test of `net/url`. -/
def ishex (c : Char) : Bool :=
  decide (48 ≤ c.toNat ∧ c.toNat ≤ 57) || decide (97 ≤ c.toNat ∧ c.toNat ≤ 102) ||
    decide (65 ≤ c.toNat ∧ c.toNat ≤ 70)

/-- First loop of `unescape` in `net/url` (path and fragment mode): every `%`
has to be followed by two hexadecimal digits. -/
def validEscapes : List Char → Bool
  | [] => true
  | c :: rest =>
    if c = '%' then
      match rest with
      | a :: b :: rest2 => ishex a && ishex b && validEscapes rest2
      | _ => false
    else validEscapes rest

/-- Go's `url.Parse`, as far as it can fail on a URL whose scheme and authority
are the literal `https://api.github.com` (neither holds a `%`): the fragment is
cut off at the first `#`; what is left is rejected when it holds an ASCII
control character; its part before the first `?` (scheme, authority and path)
goes through `unescape`, and so does the fragment. -/
def urlParseOK (rawURL : String) : Bool :=
  let (u, frag) := cut '#' rawURL.data
  let (rest, _) := cut '?' u
  !u.any isCTLByte && validEscapes rest && validEscapes frag

/-- Go's `http.NewRequest(method, url, nil)` for a valid method: it fails
exactly when `url.Parse` does. -/
def NewRequest (method url : String) : Option ClientRequest :=
  if urlParseOK url then some ⟨method, url, []⟩ else none

/-- Go's `subtle.ConstantTimeCompare`: 1 when both have equal contents, else 0. -/
def ConstantTimeCompare (x y : String) : Int :=
  if x = y then 1 else 0

/-! ## The environment of `GetRepoListSolution` -/

/-- Outcome of `client.Do(req)`: `err != nil`, or a response of which the handler
reads `StatusCode` and `Body`. -/
inductive DoResult where
  | err
  | resp (StatusCode : Int) (Body : String)
  deriving DecidableEq, Repr

/-- What is outside of the program: the Unicode lower-case table, the answer of
the network to `client.Do`, and `json.NewDecoder(body).Decode(&repos)` (`none`
when it returns an error). -/
structure Env where
  lowerTable : Char → Char
  Do : ClientRequest → DoResult
  Decode : String → Option (List GitHubRepo)

/-- Outbound activity of a handler, in the order it happens. -/
inductive Effect where
  | newRequest (method url : String)
  | clientDo (req : ClientRequest)
  deriving DecidableEq, Repr

/-! ## `handlers_solution.go` -/

/-- The handler `GetRepoListSolution(w, r)`: the writer after the call, and the
outbound activity of the call. -/
def GetRepoListSolution (env : Env) (w : ResponseWriter) (r : Request) :
    ResponseWriter × List Effect :=
  let orgName := r.PathValue "org_name"
  if orgName = "" then
    let w := w.HeaderSet "Content-Type" "application/json"
    let w := w.WriteHeader StatusBadRequest
    (w.Encode (.errorResponse ⟨"Organization name is required"⟩), [])
  else
    let repoFilter := ValuesGet r.Query "repo_filter"
    let url := "https://api.github.com/orgs/" ++ orgName ++ "/repos"
    match NewRequest "GET" url with
    | none =>
      let w := w.HeaderSet "Content-Type" "application/json"
      let w := w.WriteHeader StatusInternalServerError
      (w.Encode (.errorResponse ⟨"Failed to create request"⟩), [.newRequest "GET" url])
    | some req =>
      let req := req.HeaderSet "User-Agent" "simple-web-app"
      let req := req.HeaderSet "Accept" "application/vnd.github.v3+json"
      let trace := [Effect.newRequest "GET" url, Effect.clientDo req]
      match env.Do req with
      | .err =>
        let w := w.HeaderSet "Content-Type" "application/json"
        let w := w.WriteHeader StatusServiceUnavailable
        (w.Encode (.errorResponse ⟨"Failed to connect to GitHub API"⟩), trace)
      | .resp StatusCode Body =>
        if StatusCode = StatusNotFound then
          let w := w.HeaderSet "Content-Type" "application/json"
          let w := w.WriteHeader StatusNotFound
          (w.Encode (.errorResponse ⟨"Organization '" ++ orgName ++ "' not found"⟩), trace)
        else if StatusCode ≠ StatusOK then
          let w := w.HeaderSet "Content-Type" "application/json"
          let w := w.WriteHeader StatusBadGateway
          (w.Encode (.errorResponse ⟨"GitHub API returned status: " ++ toString StatusCode⟩),
            trace)
        else
          match env.Decode Body with
          | none =>
            let w := w.HeaderSet "Content-Type" "application/json"
            let w := w.WriteHeader StatusInternalServerError
            (w.Encode (.errorResponse ⟨"Failed to parse GitHub response"⟩), trace)
          | some repos =>
            let filtered := filteredRepos env.lowerTable repos repoFilter
            let response : RepoListResponse :=
              { Organization := orgName, Count := filtered.length, Repositories := filtered }
            let w := w.HeaderSet "Content-Type" "application/json"
            let w := w.WriteHeader StatusOK
            (w.Encode (.repoListResponse response), trace)

/-! ## `handlers.go` and `middleware/auth.go` -/

/-- Go's `http.HandlerFunc`, for handlers without outbound activity. -/
abbrev HandlerFunc := ResponseWriter → Request → ResponseWriter

/-- The handler `Protected(w, r)`. -/
def Protected : HandlerFunc := fun w r =>
  let username := match r.BasicAuth with
    | some (u, _) => u
    | none => ""
  let w := w.HeaderSet "Content-Type" "application/json"
  w.Encode (.protectedResponse ⟨"Login successful for " ++ username⟩)

/-- The middleware `BasicAuth(next)`; `getenv` is `os.Getenv`. -/
def BasicAuth (getenv : String → String) (next : HandlerFunc) : HandlerFunc := fun w r =>
  match r.BasicAuth with
  | none =>
    let w := w.HeaderSet "WWW-Authenticate" "Basic realm=\"Restricted\""
    Error w "Unauthorized" StatusUnauthorized
  | some (username, password) =>
    let correctUsername := getenv "AUTH_USERNAME"
    let correctPassword := getenv "AUTH_PASSWORD"
    if correctUsername = "" ∨ correctPassword = "" then
      Error w "Server configuration error" StatusInternalServerError
    else
      let usernameMatch := decide (ConstantTimeCompare username correctUsername = 1)
      let passwordMatch := decide (ConstantTimeCompare password correctPassword = 1)
      if !usernameMatch || !passwordMatch then
        let w := w.HeaderSet "WWW-Authenticate" "Basic realm=\"Restricted\""
        Error w "Incorrect username or password" StatusUnauthorized
      else
        next w r

/-! ## Concrete data used to instantiate the theorems -/

/-- The record `{"name":"go","stargazers_count":100}`. -/
def repoGo : GitHubRepo := ⟨"go", "", "", "", 100, ""⟩

/-- The record `{"name":"goland","stargazers_count":5}`. -/
def repoGoland : GitHubRepo := ⟨"goland", "", "", "", 5, ""⟩

/-- An inbound request with the given `org_name`, `repo_filter` values and no
credentials. -/
def requestFor (orgName : String) (repoFilter : List String) : Request :=
  { PathValue := fun name => if name = "org_name" then orgName else ""
    Query := fun key => if key = "repo_filter" then repoFilter else []
    BasicAuth := none }

/-- An environment whose upstream answers every request with `result` and whose
decoder yields `decoded` for every body. -/
def stubEnv (result : DoResult) (decoded : Option (List GitHubRepo)) : Env :=
  { lowerTable := id, Do := fun _ => result, Decode := fun _ => decoded }

/-- The request `GetRepoListSolution` sends for the organization `acme`. -/
def acmeRequest : ClientRequest :=
  { Method := "GET"
    URL := "https://api.github.com/orgs/acme/repos"
    Header := [("Accept", "application/vnd.github.v3+json"), ("User-Agent", "simple-web-app")] }

/-- A process environment with the two credentials set as given. -/
def authEnv (username password : String) : String → String :=
  fun key => if key = "AUTH_USERNAME" then username
    else if key = "AUTH_PASSWORD" then password else ""

/-- A request to `/protected` carrying the given result of `r.BasicAuth()`. -/
def protectedRequest (credentials : Option (String × String)) : Request :=
  { PathValue := fun _ => "", Query := fun _ => [], BasicAuth := credentials }

/-- The response has status `code` and its body is the one error object with
message `msg`. -/
def isErrorReply (w : ResponseWriter) (code : Int) (msg : String) : Prop :=
  w.status = some code ∧ w.body = [Payload.errorResponse ⟨msg⟩]

/-- The URL `GetRepoListSolution` builds for an organization name (line 91). -/
def orgURL (orgName : String) : String :=
  "https://api.github.com/orgs/" ++ orgName ++ "/repos"

/-- The reply of `GetRepoListSolution` is the row of the response table that the
outcome of `client.Do(req)` selects: transport error, 404, another status that
is not 200, 200 with a body that does not decode, 200 with a decoded list. -/
def upstreamRow (env : Env) (r : Request) (req : ClientRequest) : Prop :=
  (env.Do req = DoResult.err ∧
    isErrorReply (GetRepoListSolution env ResponseWriter.fresh r).1 503
      "Failed to connect to GitHub API") ∨
  (∃ b, env.Do req = DoResult.resp 404 b ∧
    isErrorReply (GetRepoListSolution env ResponseWriter.fresh r).1 404
      ("Organization '" ++ r.PathValue "org_name" ++ "' not found")) ∨
  (∃ c b, c ≠ 200 ∧ c ≠ 404 ∧ env.Do req = DoResult.resp c b ∧
    isErrorReply (GetRepoListSolution env ResponseWriter.fresh r).1 502
      ("GitHub API returned status: " ++ toString c)) ∨
  (∃ b, env.Do req = DoResult.resp 200 b ∧ env.Decode b = none ∧
    isErrorReply (GetRepoListSolution env ResponseWriter.fresh r).1 500
      "Failed to parse GitHub response") ∨
  (∃ b rs, env.Do req = DoResult.resp 200 b ∧ env.Decode b = some rs ∧
    (GetRepoListSolution env ResponseWriter.fresh r).1.status = some 200 ∧
    (GetRepoListSolution env ResponseWriter.fresh r).1.body =
      [Payload.repoListResponse
        { Organization := r.PathValue "org_name"
          Count := (filteredRepos env.lowerTable rs (ValuesGet r.Query "repo_filter")).length
          Repositories := filteredRepos env.lowerTable rs (ValuesGet r.Query "repo_filter") }])

/-! ## Lemmas on the filter -/

/-- The scan succeeds exactly when `sub` is a contiguous part of `s`. -/
theorem containsAt_iff_infix (sub s : List Char) :
    containsAt sub s = true ↔ sub <:+: s := by
  induction s with
  | nil =>
    cases sub <;> simp [containsAt, List.isPrefixOf]
  | cons c cs ih =>
    rw [containsAt, Bool.or_eq_true, ih, List.infix_cons_iff, List.isPrefixOf_iff_prefix]

/-- The loop of step 10 appends to its accumulator the records that pass the test. -/
theorem foldl_filterStep (tbl : Char → Char) (fl : String) (rs acc : List GitHubRepo) :
    rs.foldl (filterStep tbl fl) acc
      = acc ++ rs.filter (fun repo => Contains (ToLower tbl repo.Name) fl) := by
  induction rs generalizing acc with
  | nil => simp
  | cons r rs ih =>
    rw [List.foldl_cons, ih]
    by_cases h : Contains (ToLower tbl r.Name) fl = true
    · simp [filterStep, h, List.filter_cons]
    · simp [filterStep, h, List.filter_cons]

/-- With a needle the filter is `List.filter` with the substring test. -/
theorem filteredRepos_eq_filter (tbl : Char → Char) (rs : List GitHubRepo) (f : String)
    (hf : f ≠ "") :
    filteredRepos tbl rs f
      = rs.filter (fun repo => Contains (ToLower tbl repo.Name) (ToLower tbl f)) := by
  simp [filteredRepos, hf, foldl_filterStep]

/-- Without a needle the filter returns its input. -/
theorem filteredRepos_empty (tbl : Char → Char) (rs : List GitHubRepo) :
    filteredRepos tbl rs "" = rs := by
  simp [filteredRepos]

/-! ## Lemmas on `GetRepoListSolution` -/

/-- A request is sent upstream only for a non-empty name whose URL
`http.NewRequest` accepts, and it is the built request with the two headers. -/
theorem sent_request (env : Env) (w : ResponseWriter) (r : Request) (req : ClientRequest)
    (hsent : Effect.clientDo req ∈ (GetRepoListSolution env w r).2) :
    r.PathValue "org_name" ≠ "" ∧
    ∃ req0, NewRequest "GET" ("https://api.github.com/orgs/" ++ r.PathValue "org_name" ++ "/repos")
        = some req0 ∧
      req = (req0.HeaderSet "User-Agent" "simple-web-app").HeaderSet "Accept"
        "application/vnd.github.v3+json" := by
  unfold GetRepoListSolution at hsent
  by_cases hn : r.PathValue "org_name" = ""
  · simp [hn] at hsent
  · refine ⟨hn, ?_⟩
    cases h0 : NewRequest "GET" ("https://api.github.com/orgs/" ++ r.PathValue "org_name" ++ "/repos") with
    | none => simp [hn, h0] at hsent
    | some req0 =>
      refine ⟨req0, rfl, ?_⟩
      simp only [hn, h0, if_false] at hsent
      cases hd : env.Do ((req0.HeaderSet "User-Agent" "simple-web-app").HeaderSet "Accept"
          "application/vnd.github.v3+json") with
      | err => simpa [hd] using hsent
      | resp c b =>
        rw [hd] at hsent
        dsimp only at hsent
        split at hsent
        · simpa using hsent
        · split at hsent
          · simpa using hsent
          · split at hsent <;> simpa using hsent

/-- The response to a 200 answer whose body decodes to `rs`. -/
theorem response_on_decoded (env : Env) (r : Request) (req : ClientRequest) (body : String)
    (rs : List GitHubRepo)
    (hsent : Effect.clientDo req ∈ (GetRepoListSolution env ResponseWriter.fresh r).2)
    (hdo : env.Do req = DoResult.resp 200 body)
    (hdec : env.Decode body = some rs) :
    (GetRepoListSolution env ResponseWriter.fresh r).1.status = some 200 ∧
    (GetRepoListSolution env ResponseWriter.fresh r).1.body =
      [Payload.repoListResponse
        { Organization := r.PathValue "org_name"
          Count := (filteredRepos env.lowerTable rs (ValuesGet r.Query "repo_filter")).length
          Repositories := filteredRepos env.lowerTable rs (ValuesGet r.Query "repo_filter") }] := by
  obtain ⟨hn, req0, h0, rfl⟩ := sent_request env _ r req hsent
  simp [GetRepoListSolution, hn, h0, hdo, hdec, ResponseWriter.Encode, ResponseWriter.Write,
    ResponseWriter.WriteHeader, ResponseWriter.HeaderSet, ResponseWriter.fresh]

/-! ## Theorems on `GetRepoListSolution` -/

/-- C1: for a non-empty organization name, when the upstream call of the handler
is answered with status 200 and a body that decodes to `rs`, the handler
responds with status 200 and one `RepoListResponse` whose organization is the
name, whose repositories are `rs` filtered by `repo_filter` (a subsequence of
`rs`, so upstream order is kept) and whose count is their length. On the
records `go` and `goland` the filter `go` keeps both, in order, and the filter
`xyz` keeps none. -/
theorem repo_list_success (env : Env) (r : Request) (req : ClientRequest) (body : String)
    (rs : List GitHubRepo)
    (hn : r.PathValue "org_name" ≠ "")
    (hsent : Effect.clientDo req ∈ (GetRepoListSolution env ResponseWriter.fresh r).2)
    (hdo : env.Do req = DoResult.resp 200 body)
    (hdec : env.Decode body = some rs) :
    (GetRepoListSolution env ResponseWriter.fresh r).1.status = some 200 ∧
    (GetRepoListSolution env ResponseWriter.fresh r).1.body =
      [Payload.repoListResponse
        { Organization := r.PathValue "org_name"
          Count := (filteredRepos env.lowerTable rs (ValuesGet r.Query "repo_filter")).length
          Repositories := filteredRepos env.lowerTable rs (ValuesGet r.Query "repo_filter") }] ∧
    (filteredRepos env.lowerTable rs (ValuesGet r.Query "repo_filter")).Sublist rs ∧
    filteredRepos env.lowerTable [repoGo, repoGoland] "go" = [repoGo, repoGoland] ∧
    filteredRepos env.lowerTable [repoGo, repoGoland] "xyz" = [] := by
  obtain ⟨_, req0, h0, rfl⟩ := sent_request env _ r req hsent
  refine ⟨?_, ?_, ?_, rfl, rfl⟩
  · simp [GetRepoListSolution, hn, h0, hdo, hdec, ResponseWriter.Encode, ResponseWriter.Write,
      ResponseWriter.WriteHeader, ResponseWriter.HeaderSet, ResponseWriter.fresh]
  · simp [GetRepoListSolution, hn, h0, hdo, hdec, ResponseWriter.Encode, ResponseWriter.Write,
      ResponseWriter.WriteHeader, ResponseWriter.HeaderSet, ResponseWriter.fresh]
  · by_cases hf : ValuesGet r.Query "repo_filter" = ""
    · rw [hf, filteredRepos_empty]
    · rw [filteredRepos_eq_filter _ _ _ hf]
      exact List.filter_sublist _

/-- C1 at a concrete input: organization `acme`, filter `go`, upstream 200 with
the records `go` and `goland`. -/
theorem repo_list_success_witness :
    Effect.clientDo acmeRequest ∈
      (GetRepoListSolution (stubEnv (DoResult.resp 200 "body") (some [repoGo, repoGoland]))
        ResponseWriter.fresh (requestFor "acme" ["go"])).2 ∧
    (GetRepoListSolution (stubEnv (DoResult.resp 200 "body") (some [repoGo, repoGoland]))
        ResponseWriter.fresh (requestFor "acme" ["go"])).1.status = some 200 ∧
    (GetRepoListSolution (stubEnv (DoResult.resp 200 "body") (some [repoGo, repoGoland]))
        ResponseWriter.fresh (requestFor "acme" ["go"])).1.body
      = [Payload.repoListResponse ⟨"acme", 2, [repoGo, repoGoland]⟩] :=
  have h := repo_list_success (stubEnv (DoResult.resp 200 "body") (some [repoGo, repoGoland]))
    (requestFor "acme" ["go"]) acmeRequest "body" [repoGo, repoGoland]
    (by decide) (by decide) rfl rfl
  ⟨by decide, h.1, h.2.1⟩

/-- C2: for a non-empty organization name, when the upstream call of the handler
does not give a 200 response, the reply depends on the outcome only: a
transport error gives 503 `Failed to connect to GitHub API`, status 404 gives
404 `Organization '<n>' not found`, any other status `c` gives 502
`GitHub API returned status: <c>`; the body never holds a repository list. -/
theorem repo_list_upstream_failure (env : Env) (r : Request) (req : ClientRequest)
    (hn : r.PathValue "org_name" ≠ "")
    (hsent : Effect.clientDo req ∈ (GetRepoListSolution env ResponseWriter.fresh r).2) :
    (env.Do req = DoResult.err →
      (GetRepoListSolution env ResponseWriter.fresh r).1.status = some 503 ∧
      (GetRepoListSolution env ResponseWriter.fresh r).1.body
        = [Payload.errorResponse ⟨"Failed to connect to GitHub API"⟩]) ∧
    (∀ b, env.Do req = DoResult.resp 404 b →
      (GetRepoListSolution env ResponseWriter.fresh r).1.status = some 404 ∧
      (GetRepoListSolution env ResponseWriter.fresh r).1.body
        = [Payload.errorResponse ⟨"Organization '" ++ r.PathValue "org_name" ++ "' not found"⟩]) ∧
    (∀ c b, c ≠ 200 → c ≠ 404 → env.Do req = DoResult.resp c b →
      (GetRepoListSolution env ResponseWriter.fresh r).1.status = some 502 ∧
      (GetRepoListSolution env ResponseWriter.fresh r).1.body
        = [Payload.errorResponse ⟨"GitHub API returned status: " ++ toString c⟩]) ∧
    ((∀ b, env.Do req ≠ DoResult.resp 200 b) →
      ∀ x, Payload.repoListResponse x ∉ (GetRepoListSolution env ResponseWriter.fresh r).1.body) := by
  obtain ⟨_, req0, h0, rfl⟩ := sent_request env _ r req hsent
  refine ⟨?_, ?_, ?_, ?_⟩
  · intro hdo
    simp [GetRepoListSolution, hn, h0, hdo, ResponseWriter.Encode, ResponseWriter.Write,
      ResponseWriter.WriteHeader, ResponseWriter.HeaderSet, ResponseWriter.fresh]
  · intro b hdo
    simp [GetRepoListSolution, hn, h0, hdo, ResponseWriter.Encode, ResponseWriter.Write,
      ResponseWriter.WriteHeader, ResponseWriter.HeaderSet, ResponseWriter.fresh]
  · intro c b hc200 hc404 hdo
    simp [GetRepoListSolution, hn, h0, hdo, hc200, hc404, ResponseWriter.Encode,
      ResponseWriter.Write, ResponseWriter.WriteHeader, ResponseWriter.HeaderSet,
      ResponseWriter.fresh]
  · intro hne x
    cases hdo : env.Do ((req0.HeaderSet "User-Agent" "simple-web-app").HeaderSet "Accept"
        "application/vnd.github.v3+json") with
    | err =>
      simp [GetRepoListSolution, hn, h0, hdo, ResponseWriter.Encode, ResponseWriter.Write,
        ResponseWriter.WriteHeader, ResponseWriter.HeaderSet, ResponseWriter.fresh]
    | resp c b =>
      have hc200 : c ≠ 200 := fun hc => hne b (hc ▸ hdo)
      by_cases hc404 : c = 404
      · simp [GetRepoListSolution, hn, h0, hdo, hc404, ResponseWriter.Encode,
          ResponseWriter.Write, ResponseWriter.WriteHeader, ResponseWriter.HeaderSet,
          ResponseWriter.fresh]
      · simp [GetRepoListSolution, hn, h0, hdo, hc200, hc404, ResponseWriter.Encode,
          ResponseWriter.Write, ResponseWriter.WriteHeader, ResponseWriter.HeaderSet,
          ResponseWriter.fresh]

/-- C2 at a concrete input: organization `acme`, upstream status 404. -/
theorem repo_list_upstream_failure_witness :
    Effect.clientDo acmeRequest ∈
      (GetRepoListSolution (stubEnv (DoResult.resp 404 "") none) ResponseWriter.fresh
        (requestFor "acme" [])).2 ∧
    (GetRepoListSolution (stubEnv (DoResult.resp 404 "") none) ResponseWriter.fresh
        (requestFor "acme" [])).1.status = some 404 ∧
    (GetRepoListSolution (stubEnv (DoResult.resp 404 "") none) ResponseWriter.fresh
        (requestFor "acme" [])).1.body
      = [Payload.errorResponse ⟨"Organization 'acme' not found"⟩] ∧
    (GetRepoListSolution (stubEnv (DoResult.resp 403 "") none) ResponseWriter.fresh
        (requestFor "acme" ["go"])).1.body
      = [Payload.errorResponse ⟨"GitHub API returned status: 403"⟩] ∧
    (GetRepoListSolution (stubEnv DoResult.err none) ResponseWriter.fresh
        (requestFor "acme" ["go"])).1.status = some 503 :=
  have h := (repo_list_upstream_failure (stubEnv (DoResult.resp 404 "") none)
    (requestFor "acme" []) acmeRequest (by decide) (by decide)).2.1 "" rfl
  have h403 := (repo_list_upstream_failure (stubEnv (DoResult.resp 403 "") none)
    (requestFor "acme" ["go"]) acmeRequest (by decide) (by decide)).2.2.1 403 ""
    (by decide) (by decide) rfl
  have herr := (repo_list_upstream_failure (stubEnv DoResult.err none)
    (requestFor "acme" ["go"]) acmeRequest (by decide) (by decide)).1 rfl
  ⟨by decide, h.1, h.2, h403.2, herr.1⟩

/-- C3: when the `org_name` path value is empty the handler responds with status
400 and the error `Organization name is required`, whatever the query holds,
and it neither builds nor sends an outbound request. -/
theorem repo_list_empty_name (env : Env) (r : Request)
    (hn : r.PathValue "org_name" = "") :
    (GetRepoListSolution env ResponseWriter.fresh r).1.status = some 400 ∧
    (GetRepoListSolution env ResponseWriter.fresh r).1.body
      = [Payload.errorResponse ⟨"Organization name is required"⟩] ∧
    (GetRepoListSolution env ResponseWriter.fresh r).2 = [] := by
  simp [GetRepoListSolution, hn, ResponseWriter.Encode, ResponseWriter.Write,
    ResponseWriter.WriteHeader, ResponseWriter.HeaderSet, ResponseWriter.fresh]

/-- C3 at a concrete input: empty name, filter `go`, an upstream that would
answer 200. -/
theorem repo_list_empty_name_witness :
    (GetRepoListSolution (stubEnv (DoResult.resp 200 "body") (some [repoGo]))
        ResponseWriter.fresh (requestFor "" ["go"])).1.status = some 400 ∧
    (GetRepoListSolution (stubEnv (DoResult.resp 200 "body") (some [repoGo]))
        ResponseWriter.fresh (requestFor "" ["go"])).2 = [] :=
  have h := repo_list_empty_name (stubEnv (DoResult.resp 200 "body") (some [repoGo]))
    (requestFor "" ["go"]) (by decide)
  ⟨h.1, h.2.2⟩

/-- C5: for a non-empty organization name, when the upstream call of the handler
is answered with status 200 and a body the decoder rejects, the handler
responds with status 500 and the error `Failed to parse GitHub response`, and
the body holds no repository list. -/
theorem repo_list_malformed (env : Env) (r : Request) (req : ClientRequest) (body : String)
    (hn : r.PathValue "org_name" ≠ "")
    (hsent : Effect.clientDo req ∈ (GetRepoListSolution env ResponseWriter.fresh r).2)
    (hdo : env.Do req = DoResult.resp 200 body)
    (hdec : env.Decode body = none) :
    (GetRepoListSolution env ResponseWriter.fresh r).1.status = some 500 ∧
    (GetRepoListSolution env ResponseWriter.fresh r).1.body
      = [Payload.errorResponse ⟨"Failed to parse GitHub response"⟩] ∧
    ∀ x, Payload.repoListResponse x ∉ (GetRepoListSolution env ResponseWriter.fresh r).1.body := by
  obtain ⟨_, req0, h0, rfl⟩ := sent_request env _ r req hsent
  simp [GetRepoListSolution, hn, h0, hdo, hdec, ResponseWriter.Encode, ResponseWriter.Write,
    ResponseWriter.WriteHeader, ResponseWriter.HeaderSet, ResponseWriter.fresh]

/-- C5 at a concrete input: organization `acme`, upstream 200 with a body that
does not decode. -/
theorem repo_list_malformed_witness :
    Effect.clientDo acmeRequest ∈
      (GetRepoListSolution (stubEnv (DoResult.resp 200 "not json") none) ResponseWriter.fresh
        (requestFor "acme" ["go"])).2 ∧
    (GetRepoListSolution (stubEnv (DoResult.resp 200 "not json") none) ResponseWriter.fresh
        (requestFor "acme" ["go"])).1.status = some 500 :=
  have h := repo_list_malformed (stubEnv (DoResult.resp 200 "not json") none)
    (requestFor "acme" ["go"]) acmeRequest "not json" (by decide) (by decide) rfl rfl
  ⟨by decide, h.1⟩

/-! ## Theorems on the filter -/

/-- C4: with a non-empty needle `f` the filtering step returns exactly the
records of `rs` whose lower-cased name contains the lower-cased `f` as a
contiguous substring, each as often as in `rs` and in the order of `rs`; when
no record matches, the result is empty. A record named `MyRepo` is kept for
the needles `myrepo` and `REPO`, and `goland` is kept for the inner part `lan`. -/
theorem filter_substring_subsequence (tbl : Char → Char) (rs : List GitHubRepo) (f : String)
    (hf : f ≠ "") :
    filteredRepos tbl rs f
      = rs.filter (fun repo => Contains (ToLower tbl repo.Name) (ToLower tbl f)) ∧
    (∀ name : String, Contains (ToLower tbl name) (ToLower tbl f) = true ↔
      ∃ pre post, pre ++ (ToLower tbl f).data ++ post = (ToLower tbl name).data) ∧
    (filteredRepos tbl rs f).Sublist rs ∧
    ((∀ repo ∈ rs, Contains (ToLower tbl repo.Name) (ToLower tbl f) = false) →
      filteredRepos tbl rs f = []) ∧
    (∀ (a b c d : String) (n : Int),
      filteredRepos tbl [⟨"MyRepo", a, b, c, n, d⟩] "myrepo" = [⟨"MyRepo", a, b, c, n, d⟩] ∧
      filteredRepos tbl [⟨"MyRepo", a, b, c, n, d⟩] "REPO" = [⟨"MyRepo", a, b, c, n, d⟩]) ∧
    filteredRepos tbl [repoGo, repoGoland] "lan" = [repoGoland] := by
  refine ⟨filteredRepos_eq_filter tbl rs f hf, ?_, ?_, ?_, ?_, rfl⟩
  · intro name
    exact containsAt_iff_infix _ _
  · rw [filteredRepos_eq_filter tbl rs f hf]
    exact List.filter_sublist _
  · intro hnone
    rw [filteredRepos_eq_filter tbl rs f hf, List.filter_eq_nil_iff]
    intro repo hmem
    simp [hnone repo hmem]
  · intro a b c d n
    exact ⟨rfl, rfl⟩

/-- C4 at a concrete input: the needle `GO` on the records `go` and `goland`. -/
theorem filter_substring_subsequence_witness :
    filteredRepos id [repoGo, repoGoland] "GO"
      = [repoGo, repoGoland].filter (fun repo => Contains (ToLower id repo.Name) (ToLower id "GO")) :=
  (filter_substring_subsequence id [repoGo, repoGoland] "GO" (by decide)).1

/-- C9: the filtering step with the empty needle returns `rs` unchanged; an
absent `repo_filter` reads as the empty needle; and the success response then
lists every decoded record, with count the length of `rs`. -/
theorem filter_empty_needle_identity (tbl : Char → Char) (rs : List GitHubRepo) :
    filteredRepos tbl rs "" = rs ∧
    (∀ q : String → List String, q "repo_filter" = [] → ValuesGet q "repo_filter" = "") ∧
    (∀ (env : Env) (r : Request) (req : ClientRequest) (body : String),
      ValuesGet r.Query "repo_filter" = "" →
      Effect.clientDo req ∈ (GetRepoListSolution env ResponseWriter.fresh r).2 →
      env.Do req = DoResult.resp 200 body →
      env.Decode body = some rs →
      (GetRepoListSolution env ResponseWriter.fresh r).1.status = some 200 ∧
      (GetRepoListSolution env ResponseWriter.fresh r).1.body
        = [Payload.repoListResponse ⟨r.PathValue "org_name", rs.length, rs⟩]) := by
  refine ⟨filteredRepos_empty tbl rs, ?_, ?_⟩
  · intro q hq
    simp [ValuesGet, hq]
  · intro env r req body hf hsent hdo hdec
    have hresp := response_on_decoded env r req body rs hsent hdo hdec
    rw [hf, filteredRepos_empty] at hresp
    exact hresp

/-- C9 at a concrete input: organization `acme`, no `repo_filter`, upstream 200
with the records `go` and `goland`. -/
theorem filter_empty_needle_identity_witness :
    (GetRepoListSolution (stubEnv (DoResult.resp 200 "body") (some [repoGo, repoGoland]))
        ResponseWriter.fresh (requestFor "acme" [])).1.body
      = [Payload.repoListResponse ⟨"acme", 2, [repoGo, repoGoland]⟩] :=
  ((filter_empty_needle_identity id [repoGo, repoGoland]).2.2
    (stubEnv (DoResult.resp 200 "body") (some [repoGo, repoGoland]))
    (requestFor "acme" []) acmeRequest "body" rfl (by decide) rfl rfl).2

/-- C10: the filtering step is idempotent for every needle, empty or not. -/
theorem filter_idempotent (tbl : Char → Char) (rs : List GitHubRepo) (f : String) :
    filteredRepos tbl (filteredRepos tbl rs f) f = filteredRepos tbl rs f := by
  by_cases hf : f = ""
  · subst hf
    rw [filteredRepos_empty, filteredRepos_empty]
  · rw [filteredRepos_eq_filter tbl rs f hf, filteredRepos_eq_filter tbl _ f hf,
      List.filter_filter]
    simp

/-! ## Lemmas on `BasicAuth` -/

/-- The comparison answers 1 exactly on equal strings. -/
theorem constantTimeCompare_eq_one (x y : String) : ConstantTimeCompare x y = 1 ↔ x = y := by
  unfold ConstantTimeCompare
  by_cases h : x = y <;> simp [h]

/-- The function `http.Error` sets the status of a writer without one and writes its
line to the body. -/
theorem error_writes (w : ResponseWriter) (msg : String) (code : Int) (hw : w.status = none) :
    (Error w msg code).status = some code ∧ (Error w msg code).body = w.body ++ [Payload.text (msg ++ "\n")] := by
  simp [Error, ResponseWriter.Write, ResponseWriter.WriteHeader, ResponseWriter.HeaderSet,
    ResponseWriter.HeaderDel, hw]

/-- With matching credentials the middleware hands over to `next`. -/
theorem basicAuth_pass (getenv : String → String) (next : HandlerFunc) (w : ResponseWriter)
    (r : Request)
    (hu : getenv "AUTH_USERNAME" ≠ "") (hp : getenv "AUTH_PASSWORD" ≠ "")
    (hcred : r.BasicAuth = some (getenv "AUTH_USERNAME", getenv "AUTH_PASSWORD")) :
    BasicAuth getenv next w r = next w r := by
  simp [BasicAuth, hcred, hu, hp, constantTimeCompare_eq_one]

/-- With both values configured, anything but matching credentials gets the
401 reply of `http.Error`, whatever `next` is. -/
theorem basicAuth_reject (getenv : String → String) (w : ResponseWriter) (r : Request)
    (hu : getenv "AUTH_USERNAME" ≠ "") (hp : getenv "AUTH_PASSWORD" ≠ "")
    (hcred : r.BasicAuth ≠ some (getenv "AUTH_USERNAME", getenv "AUTH_PASSWORD")) :
    ∃ msg, ∀ next : HandlerFunc, BasicAuth getenv next w r
      = Error (w.HeaderSet "WWW-Authenticate" "Basic realm=\"Restricted\"") msg
          StatusUnauthorized := by
  cases hb : r.BasicAuth with
  | none =>
    exact ⟨"Unauthorized", fun next => by simp [BasicAuth, hb]⟩
  | some up =>
    obtain ⟨u, p⟩ := up
    refine ⟨"Incorrect username or password", fun next => ?_⟩
    have hne : ¬ (u = getenv "AUTH_USERNAME" ∧ p = getenv "AUTH_PASSWORD") := by
      rintro ⟨rfl, rfl⟩
      exact hcred hb
    by_cases h1 : u = getenv "AUTH_USERNAME"
    · have h2 : p ≠ getenv "AUTH_PASSWORD" := fun h2 => hne ⟨h1, h2⟩
      simp [BasicAuth, hb, hu, hp, constantTimeCompare_eq_one, h1, h2]
    · simp [BasicAuth, hb, hu, hp, constantTimeCompare_eq_one, h1]

/-! ## Theorems on `BasicAuth` and `Protected` -/

/-- C6: with `AUTH_USERNAME` and `AUTH_PASSWORD` both non-empty, the middleware
hands the request to the wrapped handler (its result is the result of `next`,
for every `next`) if and only if the request carries Basic credentials equal
to the configured pair; then `Protected` answers status 200 with the message
`Login successful for <username>` for the username of the request; in every
other case the response has status 401 and does not depend on `next`. -/
theorem basic_auth_gate (getenv : String → String) (r : Request)
    (hu : getenv "AUTH_USERNAME" ≠ "") (hp : getenv "AUTH_PASSWORD" ≠ "") :
    (∀ w : ResponseWriter, (∀ next : HandlerFunc, BasicAuth getenv next w r = next w r) ↔
      r.BasicAuth = some (getenv "AUTH_USERNAME", getenv "AUTH_PASSWORD")) ∧
    (∀ username password, r.BasicAuth = some (username, password) →
      username = getenv "AUTH_USERNAME" → password = getenv "AUTH_PASSWORD" →
      (BasicAuth getenv Protected ResponseWriter.fresh r).status = some 200 ∧
      (BasicAuth getenv Protected ResponseWriter.fresh r).body
        = [Payload.protectedResponse ⟨"Login successful for " ++ username⟩]) ∧
    (r.BasicAuth ≠ some (getenv "AUTH_USERNAME", getenv "AUTH_PASSWORD") →
      ∀ next : HandlerFunc,
        (BasicAuth getenv next ResponseWriter.fresh r).status = some 401 ∧
        ∀ other : HandlerFunc,
          BasicAuth getenv next ResponseWriter.fresh r
            = BasicAuth getenv other ResponseWriter.fresh r) := by
  refine ⟨?_, ?_, ?_⟩
  · intro w
    constructor
    · intro hall
      by_contra hcred
      obtain ⟨msg, hrej⟩ := basicAuth_reject getenv w r hu hp hcred
      have h := hall (fun _ _ => ResponseWriter.fresh)
      rw [hrej] at h
      have hbody := congrArg ResponseWriter.body h
      simp [Error, ResponseWriter.Write, ResponseWriter.fresh] at hbody
    · intro hcred next
      exact basicAuth_pass getenv next w r hu hp hcred
  · intro username password hb h1 h2
    have hcred : r.BasicAuth = some (getenv "AUTH_USERNAME", getenv "AUTH_PASSWORD") := by
      rw [hb, h1, h2]
    rw [basicAuth_pass getenv Protected _ r hu hp hcred]
    simp [Protected, hb, ResponseWriter.Encode, ResponseWriter.Write, ResponseWriter.WriteHeader,
      ResponseWriter.HeaderSet, ResponseWriter.fresh]
  · intro hcred next
    obtain ⟨msg, hrej⟩ := basicAuth_reject getenv ResponseWriter.fresh r hu hp hcred
    refine ⟨?_, fun other => by rw [hrej, hrej]⟩
    rw [hrej]
    exact (error_writes _ msg StatusUnauthorized rfl).1

/-- C6 at a concrete input: credentials `admin` / `secret` configured and
supplied. -/
theorem basic_auth_gate_witness :
    (BasicAuth (authEnv "admin" "secret") Protected ResponseWriter.fresh
        (protectedRequest (some ("admin", "secret")))).status = some 200 ∧
    (BasicAuth (authEnv "admin" "secret") Protected ResponseWriter.fresh
        (protectedRequest (some ("admin", "secret")))).body
      = [Payload.protectedResponse ⟨"Login successful for admin"⟩] :=
  (basic_auth_gate (authEnv "admin" "secret") (protectedRequest (some ("admin", "secret")))
    (by decide) (by decide)).2.1 "admin" "secret" rfl rfl rfl

/-- C7, counterexample: with neither value configured, a request without
credentials is answered with status 401, not 500. -/
theorem basic_auth_unconfigured_no_credentials :
    authEnv "" "" "AUTH_USERNAME" = "" ∧
    (BasicAuth (authEnv "" "") Protected ResponseWriter.fresh (protectedRequest none)).status
      = some 401 ∧
    (BasicAuth (authEnv "" "") Protected ResponseWriter.fresh (protectedRequest none)).status
      ≠ some 500 := by
  decide

/-- C7, amended: if either expected value is empty, the wrapped handler is never
reached (the response does not depend on it); a request that carries Basic
credentials is answered with status 500 and `Server configuration error`, and a
request without credentials with status 401. -/
theorem basic_auth_unconfigured (getenv : String → String) (r : Request) (next : HandlerFunc)
    (h : getenv "AUTH_USERNAME" = "" ∨ getenv "AUTH_PASSWORD" = "") :
    (r.BasicAuth ≠ none →
      (BasicAuth getenv next ResponseWriter.fresh r).status = some 500 ∧
      (BasicAuth getenv next ResponseWriter.fresh r).body
        = [Payload.text "Server configuration error\n"]) ∧
    (r.BasicAuth = none →
      (BasicAuth getenv next ResponseWriter.fresh r).status = some 401) ∧
    (∀ other : HandlerFunc,
      BasicAuth getenv next ResponseWriter.fresh r
        = BasicAuth getenv other ResponseWriter.fresh r) := by
  cases hb : r.BasicAuth with
  | none =>
    refine ⟨fun hne => absurd rfl hne, fun _ => ?_, fun other => ?_⟩
    · simp [BasicAuth, hb, Error, ResponseWriter.Write, ResponseWriter.WriteHeader,
        ResponseWriter.HeaderSet, ResponseWriter.HeaderDel, ResponseWriter.fresh]
    · simp [BasicAuth, hb]
  | some up =>
    obtain ⟨u, p⟩ := up
    refine ⟨fun _ => ?_, fun hnone => by simp at hnone, fun other => ?_⟩
    · simp [BasicAuth, hb, h, Error, ResponseWriter.Write, ResponseWriter.WriteHeader,
        ResponseWriter.HeaderSet, ResponseWriter.HeaderDel, ResponseWriter.fresh]
    · simp [BasicAuth, hb, h]

/-- C7, amended, at a concrete input: no password configured, credentials
supplied. -/
theorem basic_auth_unconfigured_witness :
    (BasicAuth (authEnv "admin" "") Protected ResponseWriter.fresh
        (protectedRequest (some ("admin", "")))).status = some 500 :=
  ((basic_auth_unconfigured (authEnv "admin" "") (protectedRequest (some ("admin", "")))
    Protected (Or.inr (by decide))).1 (by decide)).1

/-! ## The rows of the response table -/

/-- A non-empty name whose URL `http.NewRequest` rejects: the reply is the
`Failed to create request` error, and nothing is sent. -/
theorem reply_not_built (env : Env) (r : Request)
    (hn : r.PathValue "org_name" ≠ "")
    (hurl : urlParseOK (orgURL (r.PathValue "org_name")) = false) :
    isErrorReply (GetRepoListSolution env ResponseWriter.fresh r).1 500 "Failed to create request" ∧
    (GetRepoListSolution env ResponseWriter.fresh r).2
      = [Effect.newRequest "GET" (orgURL (r.PathValue "org_name"))] := by
  unfold orgURL at hurl
  simp [GetRepoListSolution, isErrorReply, orgURL, NewRequest, hn, hurl, ResponseWriter.Encode,
    ResponseWriter.Write, ResponseWriter.WriteHeader, ResponseWriter.HeaderSet,
    ResponseWriter.fresh]

/-- A non-empty name whose URL `http.NewRequest` accepts: one request for that
URL is sent, and the reply is the row picked by the outcome of the call. -/
theorem reply_built (env : Env) (r : Request)
    (hn : r.PathValue "org_name" ≠ "")
    (hurl : urlParseOK (orgURL (r.PathValue "org_name")) = true) :
    ∃ req : ClientRequest,
      req.Method = "GET" ∧ req.URL = orgURL (r.PathValue "org_name") ∧
      (GetRepoListSolution env ResponseWriter.fresh r).2
        = [Effect.newRequest "GET" (orgURL (r.PathValue "org_name")), Effect.clientDo req] ∧
      upstreamRow env r req := by
  unfold orgURL at hurl
  have h0 : NewRequest "GET" ("https://api.github.com/orgs/" ++ r.PathValue "org_name" ++ "/repos")
      = some ⟨"GET", "https://api.github.com/orgs/" ++ r.PathValue "org_name" ++ "/repos", []⟩ := by
    simp [NewRequest, hurl]
  refine ⟨(ClientRequest.HeaderSet (ClientRequest.HeaderSet
    ⟨"GET", "https://api.github.com/orgs/" ++ r.PathValue "org_name" ++ "/repos", []⟩
    "User-Agent" "simple-web-app") "Accept" "application/vnd.github.v3+json"), rfl, rfl, ?_, ?_⟩
  · simp only [GetRepoListSolution, hn, h0, orgURL, if_false]
    cases hd : env.Do (ClientRequest.HeaderSet (ClientRequest.HeaderSet
        ⟨"GET", "https://api.github.com/orgs/" ++ r.PathValue "org_name" ++ "/repos", []⟩
        "User-Agent" "simple-web-app") "Accept" "application/vnd.github.v3+json") with
    | err => rfl
    | resp c b =>
      dsimp only
      split
      · rfl
      · split
        · rfl
        · split <;> rfl
  · unfold upstreamRow
    cases hd : env.Do (ClientRequest.HeaderSet (ClientRequest.HeaderSet
        ⟨"GET", "https://api.github.com/orgs/" ++ r.PathValue "org_name" ++ "/repos", []⟩
        "User-Agent" "simple-web-app") "Accept" "application/vnd.github.v3+json") with
    | err =>
      left
      simp [GetRepoListSolution, isErrorReply, hn, h0, hd, ResponseWriter.Encode,
        ResponseWriter.Write, ResponseWriter.WriteHeader, ResponseWriter.HeaderSet,
        ResponseWriter.fresh]
    | resp c b =>
      by_cases hc404 : c = 404
      · subst hc404
        right; left
        refine ⟨b, rfl, ?_⟩
        simp [GetRepoListSolution, isErrorReply, hn, h0, hd, ResponseWriter.Encode,
          ResponseWriter.Write, ResponseWriter.WriteHeader, ResponseWriter.HeaderSet,
          ResponseWriter.fresh]
      · by_cases hc200 : c = 200
        · subst hc200
          cases hdec : env.Decode b with
          | none =>
            right; right; right; left
            refine ⟨b, rfl, hdec, ?_⟩
            simp [GetRepoListSolution, isErrorReply, hn, h0, hd, hdec, ResponseWriter.Encode,
              ResponseWriter.Write, ResponseWriter.WriteHeader, ResponseWriter.HeaderSet,
              ResponseWriter.fresh]
          | some rs =>
            right; right; right; right
            refine ⟨b, rs, rfl, hdec, ?_⟩
            simp [GetRepoListSolution, hn, h0, hd, hdec, ResponseWriter.Encode,
              ResponseWriter.Write, ResponseWriter.WriteHeader, ResponseWriter.HeaderSet,
              ResponseWriter.fresh]
        · right; right; left
          refine ⟨c, b, hc200, hc404, rfl, ?_⟩
          simp [GetRepoListSolution, isErrorReply, hn, h0, hd, hc200, hc404,
            ResponseWriter.Encode, ResponseWriter.Write, ResponseWriter.WriteHeader,
            ResponseWriter.HeaderSet, ResponseWriter.fresh]

/-! ## Theorems on the response table -/

/-- C8, counterexample: the organization name `a\nb` holds a control character,
which `url.Parse` rejects; the handler answers 500 `Failed to create request`,
a pair that is none of the six rows, and does not send the name upstream (the
stub upstream would have answered 404). The name `%` behaves the same, by its
malformed percent escape. -/
theorem repo_list_request_not_built :
    (GetRepoListSolution (stubEnv (DoResult.resp 404 "") none) ResponseWriter.fresh
        (requestFor "a\nb" [])).1.status = some 500 ∧
    (GetRepoListSolution (stubEnv (DoResult.resp 404 "") none) ResponseWriter.fresh
        (requestFor "a\nb" [])).1.body = [Payload.errorResponse ⟨"Failed to create request"⟩] ∧
    (GetRepoListSolution (stubEnv (DoResult.resp 404 "") none) ResponseWriter.fresh
        (requestFor "a\nb" [])).2 = [Effect.newRequest "GET" (orgURL "a\nb")] ∧
    (GetRepoListSolution (stubEnv (DoResult.resp 404 "") none) ResponseWriter.fresh
        (requestFor "%" [])).1.body = [Payload.errorResponse ⟨"Failed to create request"⟩] := by
  decide

/-- C8, amended: the reply of the handler is one of seven rows, the six of the
response table and 500 `Failed to create request`. The seventh is the reply for
every non-empty name whose URL `http.NewRequest` rejects, and then nothing is
sent upstream. For every non-empty name whose URL is accepted, one GET request
for `https://api.github.com/orgs/<name>/repos` is sent and the reply is the row
selected by the outcome of that call. -/
theorem repo_list_response_rows (env : Env) (r : Request) :
    (isErrorReply (GetRepoListSolution env ResponseWriter.fresh r).1 400
        "Organization name is required" ∨
      isErrorReply (GetRepoListSolution env ResponseWriter.fresh r).1 500
        "Failed to create request" ∨
      isErrorReply (GetRepoListSolution env ResponseWriter.fresh r).1 503
        "Failed to connect to GitHub API" ∨
      isErrorReply (GetRepoListSolution env ResponseWriter.fresh r).1 404
        ("Organization '" ++ r.PathValue "org_name" ++ "' not found") ∨
      (∃ c : Int, c ≠ 200 ∧ c ≠ 404 ∧
        isErrorReply (GetRepoListSolution env ResponseWriter.fresh r).1 502
          ("GitHub API returned status: " ++ toString c)) ∨
      isErrorReply (GetRepoListSolution env ResponseWriter.fresh r).1 500
        "Failed to parse GitHub response" ∨
      (∃ resp : RepoListResponse,
        (GetRepoListSolution env ResponseWriter.fresh r).1.status = some 200 ∧
        (GetRepoListSolution env ResponseWriter.fresh r).1.body
          = [Payload.repoListResponse resp] ∧
        resp.Organization = r.PathValue "org_name" ∧
        resp.Count = resp.Repositories.length)) ∧
    (r.PathValue "org_name" ≠ "" → urlParseOK (orgURL (r.PathValue "org_name")) = false →
      isErrorReply (GetRepoListSolution env ResponseWriter.fresh r).1 500
        "Failed to create request" ∧
      (GetRepoListSolution env ResponseWriter.fresh r).2
        = [Effect.newRequest "GET" (orgURL (r.PathValue "org_name"))]) ∧
    (r.PathValue "org_name" ≠ "" → urlParseOK (orgURL (r.PathValue "org_name")) = true →
      ∃ req : ClientRequest,
        req.Method = "GET" ∧ req.URL = orgURL (r.PathValue "org_name") ∧
        (GetRepoListSolution env ResponseWriter.fresh r).2
          = [Effect.newRequest "GET" (orgURL (r.PathValue "org_name")), Effect.clientDo req] ∧
        upstreamRow env r req) := by
  refine ⟨?_, reply_not_built env r, reply_built env r⟩
  by_cases hn : r.PathValue "org_name" = ""
  · left
    simp [GetRepoListSolution, isErrorReply, hn, ResponseWriter.Encode, ResponseWriter.Write,
      ResponseWriter.WriteHeader, ResponseWriter.HeaderSet, ResponseWriter.fresh]
  · cases hurl : urlParseOK (orgURL (r.PathValue "org_name")) with
    | false => exact Or.inr (Or.inl (reply_not_built env r hn hurl).1)
    | true =>
      obtain ⟨req, _, _, _, hrow⟩ := reply_built env r hn hurl
      rcases hrow with ⟨_, h⟩ | ⟨b, _, h⟩ | ⟨c, b, h200, h404, _, h⟩ | ⟨b, _, _, h⟩ |
        ⟨b, rs, _, _, hs, hb⟩
      · exact Or.inr (Or.inr (Or.inl h))
      · exact Or.inr (Or.inr (Or.inr (Or.inl h)))
      · exact Or.inr (Or.inr (Or.inr (Or.inr (Or.inl ⟨c, h200, h404, h⟩))))
      · exact Or.inr (Or.inr (Or.inr (Or.inr (Or.inr (Or.inl h)))))
      · exact Or.inr (Or.inr (Or.inr (Or.inr (Or.inr (Or.inr ⟨_, hs, hb, rfl, rfl⟩)))))

/-- C8, amended, at a concrete input: the name `a b` holds a blank, its URL is
accepted, and the name is sent upstream as it is. -/
theorem repo_list_response_rows_witness :
    ∃ req : ClientRequest,
      req.Method = "GET" ∧ req.URL = "https://api.github.com/orgs/a b/repos" ∧
      (GetRepoListSolution (stubEnv (DoResult.resp 404 "") none) ResponseWriter.fresh
          (requestFor "a b" [])).2
        = [Effect.newRequest "GET" "https://api.github.com/orgs/a b/repos", Effect.clientDo req] ∧
      upstreamRow (stubEnv (DoResult.resp 404 "") none) (requestFor "a b" []) req :=
  (repo_list_response_rows (stubEnv (DoResult.resp 404 "") none) (requestFor "a b" [])).2.2
    (by decide) (by decide)

end SimpleWebApp
